import Mathlib

/-!
Shallow embedding of the compiler front end (semantic analyzer with
intermediate-code generation, symbol table, and recursive-descent parser),
with theorems checking the natural-language specification against it.
-/

set_option maxHeartbeats 1000000

namespace Compilers

/-- The `SymbolType` enumeration of the semantic analyzer. -/
inductive SymbolType where
  | INT
  | FLOAT
  | CHAR
  | BOOL
  | ARRAY
  | FUNCTION
deriving DecidableEq, Repr

/-- `ArrayType` dataclass: base type and size, compared by value. -/
structure ArrayType where
  base_type : SymbolType
  size : Int
deriving DecidableEq, Repr

/-- `FunctionType` dataclass: return type and ordered parameter types. -/
structure FunctionType where
  return_type : SymbolType
  params : List SymbolType
deriving DecidableEq, Repr

/-- `SymbolInfo = Union[SymbolType, ArrayType, FunctionType]`. -/
inductive SymbolInfo where
  | sym (t : SymbolType)
  | arr (a : ArrayType)
  | func (f : FunctionType)
deriving DecidableEq, Repr

/-- Conversion `SymbolType(type_spec)` from the enum's string values;
raises `ValueError` on an unknown string. -/
def SymbolType.ofString (s : String) : Except String SymbolType :=
  if s = "int" then .ok .INT
  else if s = "float" then .ok .FLOAT
  else if s = "char" then .ok .CHAR
  else if s = "bool" then .ok .BOOL
  else if s = "array" then .ok .ARRAY
  else if s = "function" then .ok .FUNCTION
  else .error s!"'{s}' is not a valid SymbolType"

/-- A scalar runtime value as it flows through the analyzer: `None`,
strings (names, temps, labels, char literals), ints, floats, booleans. -/
inductive PyVal where
  | none
  | str (s : String)
  | int (n : Int)
  | float (q : Rat)
  | bool (b : Bool)
deriving DecidableEq, Repr

/-- An instruction operand: a scalar value, or a list of scalars (the
argument list attached to a `call` instruction). -/
inductive PyArg where
  | val (v : PyVal)
  | vlist (vs : List PyVal)
deriving DecidableEq, Repr

/-- Crude rendering of a value for error-message interpolation. -/
def PyVal.render : PyVal → String
  | .none => "None"
  | .str s => s
  | .int n => toString n
  | .float q => toString q
  | .bool b => if b then "True" else "False"

/-- A symbol-table entry `{'type': symbol_type, 'is_const': is_const}`. -/
structure SymbolEntry where
  type : SymbolInfo
  is_const : Bool
deriving DecidableEq, Repr

/-- The `SymbolTable` class: a mapping plus an optional parent scope. -/
inductive SymbolTable where
  | mk (table : List (String × SymbolEntry)) (parent : Option SymbolTable)
deriving Repr

/-- Field accessor for the scope's own mapping. -/
def SymbolTable.table : SymbolTable → List (String × SymbolEntry)
  | .mk t _ => t

/-- Field accessor for the parent link. -/
def SymbolTable.parent : SymbolTable → Option SymbolTable
  | .mk _ p => p

/-- `SymbolTable.add_symbol`: fails when the name is already in the current
scope's own mapping, otherwise inserts the entry there. -/
def SymbolTable.add_symbol (st : SymbolTable) (name : String)
    (symbol_type : SymbolInfo) (is_const : Bool) : Except String SymbolTable :=
  if (st.table.lookup name).isSome then
    .error s!"Variable '{name}' already declared"
  else
    .ok (.mk (st.table ++ [(name, ⟨symbol_type, is_const⟩)]) st.parent)

/-- `SymbolTable.check_symbol`: look in the current scope, then walk the
parent chain; fail when no scope binds the name. -/
def SymbolTable.check_symbol : SymbolTable → String → Except String SymbolEntry
  | .mk table parent, name =>
    match table.lookup name, parent with
    | some entry, _ => .ok entry
    | Option.none, some p => p.check_symbol name
    | Option.none, Option.none => .error s!"Variable '{name}' not declared"

/-- One intermediate-code quad `(op, arg1, arg2, result)`. -/
structure Instr where
  op : String
  arg1 : PyArg
  arg2 : PyArg
  result : PyArg
deriving DecidableEq, Repr

/-- The `IntermediateCodeGenerator`: an append-only instruction log plus
the two monotone counters. -/
structure IntermediateCodeGenerator where
  code : List Instr
  temp_count : Nat
  label_count : Nat
deriving Repr

/-- Fresh generator: empty log, both counters zero. -/
def IntermediateCodeGenerator.init : IntermediateCodeGenerator :=
  ⟨[], 0, 0⟩

/-- `new_temp`: returns `t<N>` for the current temp counter and bumps it. -/
def IntermediateCodeGenerator.new_temp (g : IntermediateCodeGenerator) :
    String × IntermediateCodeGenerator :=
  (s!"t{g.temp_count}", { g with temp_count := g.temp_count + 1 })

/-- `new_label`: returns `L<N>` for the current label counter and bumps it. -/
def IntermediateCodeGenerator.new_label (g : IntermediateCodeGenerator) :
    String × IntermediateCodeGenerator :=
  (s!"L{g.label_count}", { g with label_count := g.label_count + 1 })

/-- `emit`: append one quad to the log. -/
def IntermediateCodeGenerator.emit (g : IntermediateCodeGenerator)
    (op : String) (arg1 arg2 result : PyArg) : IntermediateCodeGenerator :=
  { g with code := g.code ++ [⟨op, arg1, arg2, result⟩] }

/-- A registration in the analyzer's `functions` table:
`{'return_type': ..., 'params': [...]}`. -/
structure FunctionSig where
  return_type : SymbolType
  params : List SymbolType
deriving DecidableEq, Repr

/-- The `SemanticAnalyzer`'s mutable state: current scope, code generator
and the function-registration table. -/
structure SemanticAnalyzer where
  current_scope : SymbolTable
  code_gen : IntermediateCodeGenerator
  functions : List (String × FunctionSig)

/-- A freshly constructed analyzer. -/
def SemanticAnalyzer.init : SemanticAnalyzer :=
  ⟨.mk [] Option.none, .init, []⟩

/-- `enter_scope`: push a new empty scope whose parent is the current one. -/
def SemanticAnalyzer.enter_scope (a : SemanticAnalyzer) : SemanticAnalyzer :=
  { a with current_scope := .mk [] (some a.current_scope) }

/-- `exit_scope`: pop to the parent scope when one exists. -/
def SemanticAnalyzer.exit_scope (a : SemanticAnalyzer) : SemanticAnalyzer :=
  match a.current_scope.parent with
  | some p => { a with current_scope := p }
  | Option.none => a

/-- The type slot of a `generate_code` result: `None` for statement-shaped
nodes, otherwise a `SymbolInfo`. -/
abbrev TypeV := Option SymbolInfo

/-- `analyze_declaration`: validate the array size and the type string,
then declare the symbol; every error is re-wrapped with a
`Declaration error:` prefix. -/
def SemanticAnalyzer.analyze_declaration (a : SemanticAnalyzer)
    (type_spec : String) (var_name : String) (is_const : Bool)
    (array_size : Option Int) : Except String SemanticAnalyzer :=
  let inner : Except String SemanticAnalyzer :=
    match array_size with
    | some n =>
      if n ≤ 0 then .error "Array size must be positive"
      else do
        let base_type ← SymbolType.ofString type_spec
        let sc ← a.current_scope.add_symbol var_name (.arr ⟨base_type, n⟩) is_const
        .ok { a with current_scope := sc }
    | Option.none => do
        let t ← SymbolType.ofString type_spec
        let sc ← a.current_scope.add_symbol var_name (.sym t) is_const
        .ok { a with current_scope := sc }
  match inner with
  | .ok a' => .ok a'
  | .error e => .error s!"Declaration error: {e}"

/-- `analyze_assignment`: resolve the target, reject const targets and
whole-array targets, then type-check; INT→FLOAT promotion only; errors are
re-wrapped with an `Assignment error:` prefix. -/
def SemanticAnalyzer.analyze_assignment (a : SemanticAnalyzer)
    (var_name : String) (expr_type : TypeV) : Except String SymbolInfo :=
  let inner : Except String SymbolInfo := do
    let var_info ← a.current_scope.check_symbol var_name
    if var_info.is_const then
      .error s!"Cannot assign to constant '{var_name}'"
    else if let .arr _ := var_info.type then
      .error s!"Cannot directly assign to array '{var_name}'"
    else if some var_info.type ≠ expr_type then
      if var_info.type = .sym .FLOAT ∧ expr_type = some (.sym .INT) then
        .ok (.sym .FLOAT)
      else
        .error s!"Type mismatch in assignment to '{var_name}'"
    else
      .ok var_info.type
  match inner with
  | .ok t => .ok t
  | .error e => .error s!"Assignment error: {e}"

/-- `analyze_binary_op`: arithmetic over INT/FLOAT with promotion,
relational over identical types or the mixed INT/FLOAT pair, logical over
BOOL; anything else fails. -/
def SemanticAnalyzer.analyze_binary_op (left_type right_type : TypeV)
    (op : String) : Except String SymbolType :=
  if op = "+" ∨ op = "-" ∨ op = "*" ∨ op = "/" then
    if (left_type ≠ some (.sym .INT) ∧ left_type ≠ some (.sym .FLOAT)) ∨
       (right_type ≠ some (.sym .INT) ∧ right_type ≠ some (.sym .FLOAT)) then
      .error s!"Invalid operands for '{op}' operation"
    else if left_type = some (.sym .FLOAT) ∨ right_type = some (.sym .FLOAT) then
      .ok .FLOAT
    else
      .ok .INT
  else if op = "<" ∨ op = ">" ∨ op = "<=" ∨ op = ">=" ∨ op = "==" ∨ op = "!=" then
    if left_type ≠ right_type then
      if (left_type = some (.sym .INT) ∧ right_type = some (.sym .FLOAT)) ∨
         (left_type = some (.sym .FLOAT) ∧ right_type = some (.sym .INT)) then
        .ok .BOOL
      else
        .error s!"Type mismatch in relational operation '{op}'"
    else
      .ok .BOOL
  else if op = "&&" ∨ op = "||" then
    if left_type ≠ some (.sym .BOOL) ∨ right_type ≠ some (.sym .BOOL) then
      .error s!"Invalid operands for logical '{op}' operation"
    else
      .ok .BOOL
  else
    .error s!"Unknown operator '{op}'"

/-- `analyze_unary_op`: `!` on BOOL yields BOOL; `-` on INT/FLOAT preserves
the operand's type; anything else fails. -/
def SemanticAnalyzer.analyze_unary_op (operand_type : TypeV) (op : String) :
    Except String TypeV :=
  if op = "!" then
    if operand_type ≠ some (.sym .BOOL) then
      .error "Invalid operand for logical NOT '!' operation"
    else
      .ok (some (.sym .BOOL))
  else if op = "-" then
    if operand_type ≠ some (.sym .INT) ∧ operand_type ≠ some (.sym .FLOAT) then
      .error "Invalid operand for unary '-' operation"
    else
      .ok operand_type
  else
    .error s!"Unknown unary operator '{op}'"

/-- `analyze_array_access`: the name must resolve to an `ArrayType` and the
index type must be exactly INT; yields the base type; errors are re-wrapped
with an `Array access error:` prefix. -/
def SemanticAnalyzer.analyze_array_access (a : SemanticAnalyzer)
    (array_name : String) (index_type : TypeV) : Except String SymbolType :=
  let inner : Except String SymbolType := do
    let array_info ← a.current_scope.check_symbol array_name
    match array_info.type with
    | .arr at_ =>
      if index_type ≠ some (.sym .INT) then
        .error "Array index must be integer"
      else
        .ok at_.base_type
    | _ => .error s!"'{array_name}' is not an array"
  match inner with
  | .ok t => .ok t
  | .error e => .error s!"Array access error: {e}"

/-- Position (0-based) of the first argument whose type differs from the
corresponding parameter type, mirroring the `for`/`zip` loop. -/
def firstArgMismatch : List (TypeV × SymbolType) → Nat → Option Nat
  | [], _ => Option.none
  | (a, p) :: rest, i =>
    if a ≠ some (.sym p) then some i else firstArgMismatch rest (i + 1)

/-- `analyze_function_call`: the callee must be registered, the arity must
match, and every argument type must exactly equal the parameter type; yields
the registered return type. -/
def SemanticAnalyzer.analyze_function_call (a : SemanticAnalyzer)
    (func_name : String) (arg_types : List TypeV) : Except String SymbolType :=
  match a.functions.lookup func_name with
  | Option.none => .error s!"Function '{func_name}' not declared"
  | some func_info =>
    if arg_types.length ≠ func_info.params.length then
      .error s!"Function '{func_name}' expects {func_info.params.length} arguments"
    else
      match firstArgMismatch (arg_types.zip func_info.params) 0 with
      | some i => .error s!"Argument {i + 1} type mismatch in call to '{func_name}'"
      | Option.none => .ok func_info.return_type

/-- A tagged-tree node as consumed by `generate_code`: the ten handled
discriminators, plus `block` (present in inputs but not dispatched on) and
`other` for any remaining discriminator string. -/
inductive Node where
  | declaration (data_type : String) (var_name : String) (is_const : Bool)
      (array_size : Option Int)
  | assignment (var_name : String) (index : Option Node) (expr : Node)
  | binary_op (op : String) (left : Node) (right : Node)
  | unary_op (op : String) (operand : Node)
  | array_access (array_name : String) (index : Node)
  | if_ (condition : Node) (then_block : Node) (else_block : Option Node)
  | while_ (condition : Node) (body : Node)
  | function_call (func_name : String) (args : List Node)
  | variable (name : String)
  | literal (value : PyVal)
  | block (statements : List Node)
  | other (tag : String)

/-- The ten discriminator strings `generate_code` dispatches on. -/
def handledTags : List String :=
  ["declaration", "assignment", "binary_op", "unary_op", "array_access",
   "if", "while", "function_call", "variable", "literal"]

/-- Attach the analyzer state at raise time to an error from a helper. -/
def liftErr {α : Type} (a : SemanticAnalyzer) :
    Except String α → Except (String × SemanticAnalyzer) α
  | .ok x => .ok x
  | .error e => .error (e, a)

mutual

/-- `SemanticAnalyzer.generate_code`: dispatch on the node's discriminator,
type-check, thread the analyzer state, and append instructions; a failure
carries the state at raise time; unrecognized discriminators fall through
to `(None, None)`. -/
def generate_code :
    Node → SemanticAnalyzer →
      Except (String × SemanticAnalyzer) (PyVal × TypeV × SemanticAnalyzer)
  | .declaration data_type var_name is_const array_size, a => do
    let a' ← liftErr a (a.analyze_declaration data_type var_name is_const array_size)
    match array_size with
    | some size =>
      .ok (.none, Option.none, { a' with code_gen := a'.code_gen.emit "alloc" (.val (.str var_name)) (.val (.int size)) (.val .none) })
    | Option.none => .ok (.none, Option.none, a')
  | .assignment var_name (some idx) expr, a => do
    let (index_result, index_type, a1) ← generate_code idx a
    let array_type ← liftErr a1 (a1.analyze_array_access var_name index_type)
    let (expr_result, expr_type, a2) ← generate_code expr a1
    if some (SymbolInfo.sym array_type) ≠ expr_type then
      .error (s!"Array element type mismatch in assignment to '{var_name}'", a2)
    else
      let (_temp, g1) := a2.code_gen.new_temp
      .ok (.none, Option.none, { a2 with code_gen := g1.emit "arraystore" (.val (.str var_name)) (.val index_result) (.val expr_result) })
  | .assignment var_name Option.none expr, a => do
    let (expr_result, expr_type, a1) ← generate_code expr a
    let result_type ← liftErr a1 (a1.analyze_assignment var_name expr_type)
    if result_type = .sym .FLOAT ∧ expr_type = some (.sym .INT) then
      let (temp, g1) := a1.code_gen.new_temp
      let g2 := g1.emit "inttofloat" (.val expr_result) (.val .none) (.val (.str temp))
      .ok (.none, Option.none, { a1 with code_gen := g2.emit "=" (.val (.str temp)) (.val .none) (.val (.str var_name)) })
    else
      .ok (.none, Option.none, { a1 with code_gen := a1.code_gen.emit "=" (.val expr_result) (.val .none) (.val (.str var_name)) })
  | .binary_op op left right, a => do
    let (left_result, left_type, a1) ← generate_code left a
    let (right_result, right_type, a2) ← generate_code right a1
    let result_type ← liftErr a2 (SemanticAnalyzer.analyze_binary_op left_type right_type op)
    let (temp, g1) := a2.code_gen.new_temp
    .ok (.str temp, some (.sym result_type), { a2 with code_gen := g1.emit op (.val left_result) (.val right_result) (.val (.str temp)) })
  | .unary_op op operand, a => do
    let (operand_result, operand_type, a1) ← generate_code operand a
    let result_type ← liftErr a1 (SemanticAnalyzer.analyze_unary_op operand_type op)
    let (temp, g1) := a1.code_gen.new_temp
    .ok (.str temp, result_type, { a1 with code_gen := g1.emit op (.val operand_result) (.val .none) (.val (.str temp)) })
  | .array_access array_name idx, a => do
    let _array_info ← liftErr a (a.current_scope.check_symbol array_name)
    let (index_result, index_type, a1) ← generate_code idx a
    let element_type ← liftErr a1 (a1.analyze_array_access array_name index_type)
    let (temp, g1) := a1.code_gen.new_temp
    .ok (.str temp, some (.sym element_type), { a1 with code_gen := g1.emit "arrayload" (.val (.str array_name)) (.val index_result) (.val (.str temp)) })
  | .if_ condition then_block else_block, a => do
    let (cond_result, cond_type, a1) ← generate_code condition a
    if cond_type ≠ some (.sym .BOOL) then
      .error ("If condition must be boolean", a1)
    else
      let (else_label, g1) := a1.code_gen.new_label
      let (end_label, g2) := g1.new_label
      let a2 := { a1 with code_gen := g2.emit "ifnot" (.val cond_result) (.val .none) (.val (.str else_label)) }
      let (_r, _t, a3) ← generate_code then_block a2
      match else_block with
      | some eb =>
        let a4 := { a3 with code_gen := a3.code_gen.emit "goto" (.val .none) (.val .none) (.val (.str end_label)) }
        let a5 := { a4 with code_gen := a4.code_gen.emit "label" (.val (.str else_label)) (.val .none) (.val .none) }
        let (_r2, _t2, a6) ← generate_code eb a5
        .ok (.none, Option.none, { a6 with code_gen := a6.code_gen.emit "label" (.val (.str end_label)) (.val .none) (.val .none) })
      | Option.none =>
        .ok (.none, Option.none, { a3 with code_gen := a3.code_gen.emit "label" (.val (.str else_label)) (.val .none) (.val .none) })
  | .while_ condition body, a => do
    let (start_label, g1) := a.code_gen.new_label
    let (end_label, g2) := g1.new_label
    let a1 := { a with code_gen := g2.emit "label" (.val (.str start_label)) (.val .none) (.val .none) }
    let (cond_result, cond_type, a2) ← generate_code condition a1
    if cond_type ≠ some (.sym .BOOL) then
      .error ("While condition must be boolean", a2)
    else
      let a3 := { a2 with code_gen := a2.code_gen.emit "ifnot" (.val cond_result) (.val .none) (.val (.str end_label)) }
      let (_r, _t, a4) ← generate_code body a3
      let a5 := { a4 with code_gen := a4.code_gen.emit "goto" (.val .none) (.val .none) (.val (.str start_label)) }
      .ok (.none, Option.none, { a5 with code_gen := a5.code_gen.emit "label" (.val (.str end_label)) (.val .none) (.val .none) })
  | .function_call func_name args, a => do
    let (arg_results, arg_types, a1) ← gen_args args a
    let return_type ← liftErr a1 (a1.analyze_function_call func_name arg_types)
    if return_type ≠ .INT then
      .ok (.none, Option.none, { a1 with code_gen := a1.code_gen.emit "call" (.val (.str func_name)) (.vlist arg_results) (.val .none) })
    else
      let (temp, g1) := a1.code_gen.new_temp
      .ok (.str temp, some (.sym return_type), { a1 with code_gen := g1.emit "call" (.val (.str func_name)) (.vlist arg_results) (.val (.str temp)) })
  | .variable name, a => do
    let var_info ← liftErr a (a.current_scope.check_symbol name)
    .ok (.str name, some var_info.type, a)
  | .literal value, a =>
    match value with
    | .bool b => .ok (.bool b, some (.sym .BOOL), a)
    | .int v => .ok (.int v, some (.sym .INT), a)
    | .float q => .ok (.float q, some (.sym .FLOAT), a)
    | .str s =>
      if s.length = 1 then .ok (.str s, some (.sym .CHAR), a)
      else .error (s!"Invalid literal value: {s}", a)
    | .none => .error ("Invalid literal value: None", a)
  | .block _, a => .ok (.none, Option.none, a)
  | .other _, a => .ok (.none, Option.none, a)

/-- The argument-evaluation loop of the `function_call` case: evaluate each
argument in order, collecting value references and types. -/
def gen_args :
    List Node → SemanticAnalyzer →
      Except (String × SemanticAnalyzer) (List PyVal × List TypeV × SemanticAnalyzer)
  | [], a => .ok ([], [], a)
  | n :: rest, a => do
    let (r, t, a1) ← generate_code n a
    let (rs, ts, a2) ← gen_args rest a1
    .ok (r :: rs, t :: ts, a2)

end

/-! ### The recursive-descent parser -/

/-- Token kinds of the parser's token stream. -/
inductive TokenType where
  | INTEGER
  | FLOAT
  | IDENTIFIER
  | PLUS
  | MINUS
  | MUL
  | DIV
  | ASSIGN
  | LPAREN
  | RPAREN
  | LBRACE
  | RBRACE
  | SEMICOLON
  | LET
  | EOF
deriving DecidableEq, Repr

/-- The enum member's name, used in syntax-error messages. -/
def TokenType.name : TokenType → String
  | .INTEGER => "INTEGER"
  | .FLOAT => "FLOAT"
  | .IDENTIFIER => "IDENTIFIER"
  | .PLUS => "PLUS"
  | .MINUS => "MINUS"
  | .MUL => "MUL"
  | .DIV => "DIV"
  | .ASSIGN => "ASSIGN"
  | .LPAREN => "LPAREN"
  | .RPAREN => "RPAREN"
  | .LBRACE => "LBRACE"
  | .RBRACE => "RBRACE"
  | .SEMICOLON => "SEMICOLON"
  | .LET => "LET"
  | .EOF => "EOF"

/-- A token: kind, optional payload, optional 1-based source position. -/
structure Token where
  type : TokenType
  value : PyVal
  line : Option Nat
  column : Option Nat
deriving DecidableEq, Repr

/-- `Token(TokenType.EOF)`: the token yielded for any position past the
last input token. -/
def Token.eofDefault : Token := ⟨.EOF, .none, Option.none, Option.none⟩

/-- The parser's AST node classes. -/
inductive Ast where
  | program (statements : List Ast)
  | varDecl (identifier : PyVal) (initializer : Ast)
  | assignmentNode (identifier : PyVal) (value : Ast)
  | binOp (left : Ast) (op : Token) (right : Ast)
  | num (token : Token)
  | var (token : Token)

/-- Parser cursor state: the fixed token list and the current position. -/
structure PState where
  tokens : List Token
  pos : Nat
deriving Repr

/-- The token at absolute position `i`, an EOF token past the end. -/
def PState.tokAt (st : PState) (i : Nat) : Token :=
  (st.tokens.drop i).headD Token.eofDefault

/-- `current_token`. -/
def PState.current (st : PState) : Token := st.tokAt st.pos

/-- Rendering of an optional source coordinate, `None` when absent. -/
def optNat.render : Option Nat → String
  | Option.none => "None"
  | some n => toString n

/-- `Parser.error`: positioned syntax-error message. -/
def Parser.errorMsg (st : PState) (expected : Option String) : String :=
  let t := st.current
  match expected with
  | some e =>
    s!"Syntax error at line {optNat.render t.line}, column {optNat.render t.column}: Expected {e}, got {t.type.name}"
  | Option.none =>
    s!"Syntax error at line {optNat.render t.line}, column {optNat.render t.column}: Unexpected token {t.type.name}"

/-- `Parser.eat`: advance the cursor when the current token matches the
expected kind, otherwise fail with a positioned syntax error. -/
def Parser.eat (token_type : TokenType) (st : PState) : Except String PState :=
  if st.current.type = token_type then
    .ok { st with pos := st.pos + 1 }
  else
    .error (Parser.errorMsg st (some token_type.name))

mutual

/-- `Parser.factor`: number, identifier, or parenthesized expression.
The fuel argument only bounds recursion depth; it is decremented once per
call and never reached by runs started with enough fuel. -/
def Parser.factor (fuel : Nat) (st : PState) : Except String (Ast × PState) :=
  match fuel with
  | 0 => .error "Recursion limit exceeded"
  | fuel + 1 =>
    let token := st.current
    if token.type = .INTEGER ∨ token.type = .FLOAT then do
      let st1 ← Parser.eat token.type st
      .ok (.num token, st1)
    else if token.type = .IDENTIFIER then do
      let st1 ← Parser.eat .IDENTIFIER st
      .ok (.var token, st1)
    else if token.type = .LPAREN then do
      let st1 ← Parser.eat .LPAREN st
      let (node, st2) ← Parser.expr fuel st1
      let st3 ← Parser.eat .RPAREN st2
      .ok (node, st3)
    else
      .error (Parser.errorMsg st (some "number, identifier, or '('"))

/-- The `while` loop of `Parser.term`: fold `*`/`/` operators onto the
accumulated left subtree. -/
def Parser.termLoop (fuel : Nat) (node : Ast) (st : PState) :
    Except String (Ast × PState) :=
  match fuel with
  | 0 => .error "Recursion limit exceeded"
  | fuel + 1 =>
    let token := st.current
    if token.type = .MUL ∨ token.type = .DIV then do
      let st1 ← Parser.eat token.type st
      let (right, st2) ← Parser.factor fuel st1
      Parser.termLoop fuel (.binOp node token right) st2
    else
      .ok (node, st)

/-- `Parser.term`: a factor followed by the `*`/`/` loop. -/
def Parser.term (fuel : Nat) (st : PState) : Except String (Ast × PState) :=
  match fuel with
  | 0 => .error "Recursion limit exceeded"
  | fuel + 1 => do
    let (node, st1) ← Parser.factor fuel st
    Parser.termLoop fuel node st1

/-- The `while` loop of `Parser.expr`: fold `+`/`-` operators onto the
accumulated left subtree. -/
def Parser.exprLoop (fuel : Nat) (node : Ast) (st : PState) :
    Except String (Ast × PState) :=
  match fuel with
  | 0 => .error "Recursion limit exceeded"
  | fuel + 1 =>
    let token := st.current
    if token.type = .PLUS ∨ token.type = .MINUS then do
      let st1 ← Parser.eat token.type st
      let (right, st2) ← Parser.term fuel st1
      Parser.exprLoop fuel (.binOp node token right) st2
    else
      .ok (node, st)

/-- `Parser.expr`: a term followed by the `+`/`-` loop. -/
def Parser.expr (fuel : Nat) (st : PState) : Except String (Ast × PState) :=
  match fuel with
  | 0 => .error "Recursion limit exceeded"
  | fuel + 1 => do
    let (node, st1) ← Parser.term fuel st
    Parser.exprLoop fuel node st1

end

/-- `Parser.assignment`: `IDENTIFIER = expression`. -/
def Parser.assignmentStmt (fuel : Nat) (st : PState) :
    Except String (Ast × PState) :=
  match fuel with
  | 0 => .error "Recursion limit exceeded"
  | fuel + 1 => do
    let identifier := st.current.value
    let st1 ← Parser.eat .IDENTIFIER st
    let st2 ← Parser.eat .ASSIGN st1
    let (value, st3) ← Parser.expr fuel st2
    .ok (.assignmentNode identifier value, st3)

/-- `Parser.var_decl`: `let IDENTIFIER = expression`. -/
def Parser.var_decl (fuel : Nat) (st : PState) : Except String (Ast × PState) :=
  match fuel with
  | 0 => .error "Recursion limit exceeded"
  | fuel + 1 => do
    let st1 ← Parser.eat .LET st
    let identifier := st1.current.value
    let st2 ← Parser.eat .IDENTIFIER st1
    let st3 ← Parser.eat .ASSIGN st2
    let (initializer, st4) ← Parser.expr fuel st3
    .ok (.varDecl identifier initializer, st4)

/-- `Parser.statement`: declaration, assignment (one-token lookahead for
`=`), or bare expression. -/
def Parser.statement (fuel : Nat) (st : PState) : Except String (Ast × PState) :=
  match fuel with
  | 0 => .error "Recursion limit exceeded"
  | fuel + 1 =>
    if st.current.type = .LET then
      Parser.var_decl fuel st
    else if st.current.type = .IDENTIFIER ∧ st.tokens.length > st.pos + 1 ∧
        (st.tokAt (st.pos + 1)).type = .ASSIGN then
      Parser.assignmentStmt fuel st
    else
      Parser.expr fuel st

/-- The `while` loop of `Parser.parse`: collect statements until the
end-of-input token, consuming an optional semicolon after each. -/
def Parser.parseLoop (fuel : Nat) (acc : List Ast) (st : PState) :
    Except String Ast :=
  match fuel with
  | 0 => .error "Recursion limit exceeded"
  | fuel + 1 =>
    if st.current.type = .EOF then
      .ok (.program acc)
    else do
      let (stmt, st1) ← Parser.statement fuel st
      let st2 ← if st1.current.type = .SEMICOLON then
          Parser.eat .SEMICOLON st1
        else
          pure st1
      Parser.parseLoop fuel (acc ++ [stmt]) st2

/-- `Parser.parse`: run the statement loop from position 0 with a fuel
budget that no run on the given tokens can exhaust. -/
def Parser.parse (tokens : List Token) : Except String Ast :=
  Parser.parseLoop (4 * tokens.length + 8) [] ⟨tokens, 0⟩

/-! ### Sessions of code-generator operations

The `IntermediateCodeGenerator`'s counters are touched only through its
own methods; a session is a sequence of method invocations. -/

/-- One invocation of an `IntermediateCodeGenerator` method. -/
inductive ICGOp where
  | newTemp
  | newLabel
  | emitI (op : String) (arg1 arg2 result : PyArg)

/-- Apply one method invocation to the generator state. -/
def ICGOp.apply (g : IntermediateCodeGenerator) :
    ICGOp → IntermediateCodeGenerator
  | .newTemp => g.new_temp.2
  | .newLabel => g.new_label.2
  | .emitI op a1 a2 r => g.emit op a1 a2 r

/-- Run a session of method invocations. -/
def runICG (g : IntermediateCodeGenerator) : List ICGOp → IntermediateCodeGenerator
  | [] => g
  | op :: rest => runICG (op.apply g) rest

/-- The temporary names issued by `new_temp` along a session, in order. -/
def issuedTemps (g : IntermediateCodeGenerator) : List ICGOp → List String
  | [] => []
  | .newTemp :: rest => g.new_temp.1 :: issuedTemps g.new_temp.2 rest
  | op :: rest => issuedTemps (op.apply g) rest

/-- The label names issued by `new_label` along a session, in order. -/
def issuedLabels (g : IntermediateCodeGenerator) : List ICGOp → List String
  | [] => []
  | .newLabel :: rest => g.new_label.1 :: issuedLabels g.new_label.2 rest
  | op :: rest => issuedLabels (op.apply g) rest

/-- How many `new_temp` invocations a session contains. -/
def countTemps : List ICGOp → Nat
  | [] => 0
  | .newTemp :: rest => countTemps rest + 1
  | _ :: rest => countTemps rest

/-- How many `new_label` invocations a session contains. -/
def countLabels : List ICGOp → Nat
  | [] => 0
  | .newLabel :: rest => countLabels rest + 1
  | _ :: rest => countLabels rest

/-! ### Decimal decoding, for injectivity of the issued names -/

/-- Numeric value of a decimal digit character. -/
def decDigit (c : Char) : Nat := c.toNat - '0'.toNat

/-- Decode a big-endian list of decimal digit characters. -/
def decList (ds : List Char) : Nat :=
  ds.foldl (fun a c => 10 * a + decDigit c) 0

theorem decList_foldl_shift (ds : List Char) :
    ∀ a : Nat, ds.foldl (fun a c => 10 * a + decDigit c) a
      = a * 10 ^ ds.length + decList ds := by
  induction ds with
  | nil => intro a; simp [decList]
  | cons c t ih =>
    intro a
    show t.foldl _ (10 * a + decDigit c) = _
    rw [ih (10 * a + decDigit c)]
    have h2 : decList (c :: t) = t.foldl (fun a c => 10 * a + decDigit c) (10 * 0 + decDigit c) := rfl
    rw [h2, ih (10 * 0 + decDigit c)]
    simp [List.length_cons]
    ring

theorem decDigit_digitChar : ∀ k, k < 10 → decDigit (Nat.digitChar k) = k := by
  decide

theorem decList_toDigitsCore :
    ∀ (fuel n : Nat) (ds : List Char), n < fuel →
      decList (Nat.toDigitsCore 10 fuel n ds) = n * 10 ^ ds.length + decList ds := by
  intro fuel
  induction fuel with
  | zero => intro n ds h; omega
  | succ f ih =>
    intro n ds h
    show decList (if n / 10 = 0 then Nat.digitChar (n % 10) :: ds
      else Nat.toDigitsCore 10 f (n / 10) (Nat.digitChar (n % 10) :: ds)) = _
    by_cases h0 : n / 10 = 0
    · rw [if_pos h0]
      have hn : n < 10 := by omega
      have : decList (Nat.digitChar (n % 10) :: ds)
          = (10 * 0 + decDigit (Nat.digitChar (n % 10))) * 10 ^ ds.length + decList ds := by
        show ds.foldl _ (10 * 0 + decDigit (Nat.digitChar (n % 10))) = _
        rw [decList_foldl_shift]
      rw [this, decDigit_digitChar (n % 10) (Nat.mod_lt n (by omega))]
      have : n % 10 = n := Nat.mod_eq_of_lt hn
      rw [this]
      ring
    · rw [if_neg h0]
      have hlt : n / 10 < f := by
        have := Nat.div_lt_self (by omega : 0 < n) (by omega : 1 < 10)
        omega
      rw [ih (n / 10) (Nat.digitChar (n % 10) :: ds) hlt]
      have : decList (Nat.digitChar (n % 10) :: ds)
          = (10 * 0 + decDigit (Nat.digitChar (n % 10))) * 10 ^ ds.length + decList ds := by
        show ds.foldl _ (10 * 0 + decDigit (Nat.digitChar (n % 10))) = _
        rw [decList_foldl_shift]
      rw [this, decDigit_digitChar (n % 10) (Nat.mod_lt n (by omega))]
      simp only [List.length_cons, pow_succ]
      have hmod : 10 * (n / 10) + n % 10 = n := Nat.div_add_mod n 10
      conv_rhs => rw [← hmod]
      ring

theorem decList_repr (n : Nat) : decList (Nat.repr n).data = n := by
  show decList (Nat.toDigits 10 n).asString.data = n
  have hdata : (Nat.toDigits 10 n).asString.data = Nat.toDigits 10 n := rfl
  rw [hdata]
  show decList (Nat.toDigitsCore 10 (n + 1) n []) = n
  rw [decList_toDigitsCore (n + 1) n [] (by omega)]
  simp [decList]

theorem Nat.repr_injective : ∀ m n : Nat, Nat.repr m = Nat.repr n → m = n := by
  intro m n h
  have := congrArg (fun s => decList s.data) h
  simpa [decList_repr] using this

theorem tName_injective : ∀ m n : Nat, m ≠ n → s!"t{m}" ≠ s!"t{n}" := by
  intro m n hne h
  apply hne
  apply Nat.repr_injective
  have h2 := congrArg String.data h
  simp [toString, String.data_append] at h2
  exact congrArg String.mk h2

theorem lName_injective : ∀ m n : Nat, m ≠ n → s!"L{m}" ≠ s!"L{n}" := by
  intro m n hne h
  apply hne
  apply Nat.repr_injective
  have h2 := congrArg String.data h
  simp [toString, String.data_append] at h2
  exact congrArg String.mk h2

theorem runICG_counters_mono : ∀ (ops : List ICGOp) (g : IntermediateCodeGenerator),
    g.temp_count ≤ (runICG g ops).temp_count ∧
    g.label_count ≤ (runICG g ops).label_count := by
  intro ops
  induction ops with
  | nil => intro g; exact ⟨le_refl _, le_refl _⟩
  | cons op rest ih =>
    intro g
    have step : g.temp_count ≤ (op.apply g).temp_count ∧
        g.label_count ≤ (op.apply g).label_count := by
      cases op with
      | newTemp =>
        exact ⟨Nat.le_succ _, le_refl _⟩
      | newLabel =>
        exact ⟨le_refl _, Nat.le_succ _⟩
      | emitI o a1 a2 r =>
        exact ⟨le_refl _, le_refl _⟩
    have := ih (op.apply g)
    exact ⟨le_trans step.1 this.1, le_trans step.2 this.2⟩

theorem issuedTemps_eq_range : ∀ (ops : List ICGOp) (g : IntermediateCodeGenerator),
    issuedTemps g ops
      = (List.range' g.temp_count (countTemps ops)).map (fun k => s!"t{k}") := by
  intro ops
  induction ops with
  | nil => intro g; rfl
  | cons op rest ih =>
    intro g
    cases op with
    | newTemp =>
      show g.new_temp.1 :: issuedTemps g.new_temp.2 rest = _
      rw [ih g.new_temp.2]
      show s!"t{g.temp_count}" :: _ = _
      rw [countTemps, List.range'_succ, List.map_cons]
      rfl
    | newLabel =>
      show issuedTemps g.new_label.2 rest = _
      rw [ih g.new_label.2]
      rfl
    | emitI o a1 a2 r =>
      show issuedTemps (ICGOp.apply g (.emitI o a1 a2 r)) rest = _
      rw [ih]
      rfl

theorem issuedLabels_eq_range : ∀ (ops : List ICGOp) (g : IntermediateCodeGenerator),
    issuedLabels g ops
      = (List.range' g.label_count (countLabels ops)).map (fun k => s!"L{k}") := by
  intro ops
  induction ops with
  | nil => intro g; rfl
  | cons op rest ih =>
    intro g
    cases op with
    | newLabel =>
      show g.new_label.1 :: issuedLabels g.new_label.2 rest = _
      rw [ih g.new_label.2]
      show s!"L{g.label_count}" :: _ = _
      rw [countLabels, List.range'_succ, List.map_cons]
      rfl
    | newTemp =>
      show issuedLabels g.new_temp.2 rest = _
      rw [ih g.new_temp.2]
      rfl
    | emitI o a1 a2 r =>
      show issuedLabels (ICGOp.apply g (.emitI o a1 a2 r)) rest = _
      rw [ih]
      rfl

/-- C8: within one session of `IntermediateCodeGenerator` operations,
`new_temp` issues `t<N>` and `new_label` issues `L<N>` from two separate
counters that each operation either bumps by one or leaves unchanged
(nothing resets them); the issued temporary names are exactly
`t<c>, t<c+1>, ...` and the labels `L<c'>, L<c'+1>, ...` — each kind's
identifier sequence is strictly increasing and has no repeats. -/
theorem C8_counters_monotone_names_unique :
    (∀ g : IntermediateCodeGenerator,
      g.new_temp.1 = s!"t{g.temp_count}" ∧
      g.new_temp.2.temp_count = g.temp_count + 1 ∧
      g.new_temp.2.label_count = g.label_count ∧
      g.new_temp.2.code = g.code ∧
      g.new_label.1 = s!"L{g.label_count}" ∧
      g.new_label.2.label_count = g.label_count + 1 ∧
      g.new_label.2.temp_count = g.temp_count ∧
      g.new_label.2.code = g.code) ∧
    (∀ (g : IntermediateCodeGenerator) (op : String) (a1 a2 r : PyArg),
      (g.emit op a1 a2 r).temp_count = g.temp_count ∧
      (g.emit op a1 a2 r).label_count = g.label_count) ∧
    (∀ (g : IntermediateCodeGenerator) (ops : List ICGOp),
      g.temp_count ≤ (runICG g ops).temp_count ∧
      g.label_count ≤ (runICG g ops).label_count) ∧
    (∀ (g : IntermediateCodeGenerator) (ops : List ICGOp),
      issuedTemps g ops
        = (List.range' g.temp_count (countTemps ops)).map (fun k => s!"t{k}") ∧
      issuedLabels g ops
        = (List.range' g.label_count (countLabels ops)).map (fun k => s!"L{k}")) ∧
    (∀ (g : IntermediateCodeGenerator) (ops : List ICGOp),
      (issuedTemps g ops).Pairwise (· ≠ ·) ∧
      (issuedLabels g ops).Pairwise (· ≠ ·)) := by
  refine ⟨?_, ?_, ?_, ?_, ?_⟩
  · intro g
    exact ⟨rfl, rfl, rfl, rfl, rfl, rfl, rfl, rfl⟩
  · intro g op a1 a2 r
    exact ⟨rfl, rfl⟩
  · intro g ops
    exact runICG_counters_mono ops g
  · intro g ops
    exact ⟨issuedTemps_eq_range ops g, issuedLabels_eq_range ops g⟩
  · intro g ops
    constructor
    · rw [issuedTemps_eq_range ops g]
      refine List.Pairwise.map _ ?_ (List.pairwise_lt_range' _ _)
      intro m n hmn
      exact tName_injective m n (Nat.ne_of_lt hmn)
    · rw [issuedLabels_eq_range ops g]
      refine List.Pairwise.map _ ?_ (List.pairwise_lt_range' _ _)
      intro m n hmn
      exact lName_injective m n (Nat.ne_of_lt hmn)

/-- The scope chain of a symbol table, innermost mapping first. -/
def SymbolTable.chain : SymbolTable → List (List (String × SymbolEntry))
  | .mk t (some q) => t :: q.chain
  | .mk t Option.none => [t]

theorem lookup_append_none {α β : Type} [BEq α] (l1 l2 : List (α × β)) (k : α)
    (h : l1.lookup k = Option.none) : (l1 ++ l2).lookup k = l2.lookup k := by
  induction l1 with
  | nil => simp
  | cons p t ih =>
    rw [List.cons_append, List.lookup]
    rw [List.lookup] at h
    cases hk : (k == p.1) with
    | true => rw [hk] at h; simp at h
    | false => rw [hk] at h; exact ih h

theorem check_symbol_error_iff (st : SymbolTable) (name : String) :
    st.check_symbol name = .error s!"Variable '{name}' not declared" ↔
      ∀ sc ∈ st.chain, sc.lookup name = Option.none := by
  match st with
  | .mk t p =>
    cases hl : t.lookup name with
    | some e =>
      rw [SymbolTable.check_symbol.eq_def]; simp only [hl]
      constructor
      · intro h; cases h
      · intro h
        have hmem : t ∈ SymbolTable.chain (.mk t p) := by
          cases p <;> exact List.mem_cons_self _ _
        have := h t hmem
        rw [this] at hl; cases hl
    | none =>
      cases p with
      | none =>
        rw [SymbolTable.check_symbol.eq_def]; simp only [hl]
        constructor
        · intro _ sc hsc
          simp [SymbolTable.chain] at hsc
          rw [hsc]; exact hl
        · intro _; trivial
      | some q =>
        rw [SymbolTable.check_symbol.eq_def]; simp only [hl]
        rw [check_symbol_error_iff q name]
        constructor
        · intro h sc hsc
          simp only [SymbolTable.chain, List.mem_cons] at hsc
          rcases hsc with h1 | h2
          · rw [h1]; exact hl
          · exact h sc h2
        · intro h sc hsc
          apply h
          simp only [SymbolTable.chain, List.mem_cons]
          exact Or.inr hsc

/-- C7: `add_symbol` fails with the already-declared error exactly when the
name is bound in the current scope's own mapping (parents are not
consulted); on success the entry is added there and resolves to the new
binding, shadowing any outer one; `check_symbol` returns the current
scope's binding when present, otherwise defers to the parent chain, and
fails with the not-declared error exactly when no scope in the chain binds
the name. -/
theorem C7_scope_declare_resolve :
    ∀ (st : SymbolTable) (name : String) (ty : SymbolInfo) (c : Bool),
      (st.add_symbol name ty c = .error s!"Variable '{name}' already declared" ↔
        (st.table.lookup name).isSome) ∧
      (st.table.lookup name = Option.none →
        st.add_symbol name ty c = .ok (.mk (st.table ++ [(name, ⟨ty, c⟩)]) st.parent) ∧
        SymbolTable.check_symbol (.mk (st.table ++ [(name, ⟨ty, c⟩)]) st.parent) name
          = .ok ⟨ty, c⟩) ∧
      (∀ e, st.table.lookup name = some e → st.check_symbol name = .ok e) ∧
      (∀ p, st.table.lookup name = Option.none → st.parent = some p →
        st.check_symbol name = p.check_symbol name) ∧
      (st.check_symbol name = .error s!"Variable '{name}' not declared" ↔
        ∀ sc ∈ st.chain, sc.lookup name = Option.none) := by
  intro st name ty c
  refine ⟨?_, ?_, ?_, ?_, check_symbol_error_iff st name⟩
  · rw [SymbolTable.add_symbol]
    cases hl : st.table.lookup name with
    | some e => simp [hl]
    | none => simp [hl]
  · intro h
    constructor
    · rw [SymbolTable.add_symbol, h]
      rfl
    · have hx : (st.table ++ [(name, (⟨ty, c⟩ : SymbolEntry))]).lookup name
          = some ⟨ty, c⟩ := by
        rw [lookup_append_none _ _ _ h]
        simp [List.lookup]
      rw [SymbolTable.check_symbol.eq_def]; simp only [hx]
  · intro e he
    match st with
    | .mk t p =>
      rw [SymbolTable.table] at he
      rw [SymbolTable.check_symbol.eq_def]; simp only [he]
  · intro p hnone hp
    match st with
    | .mk t q =>
      rw [SymbolTable.table] at hnone
      rw [SymbolTable.parent] at hp
      subst hp
      rw [SymbolTable.check_symbol.eq_def]; simp only [hnone]

/-- Witness for C7 at a concrete chain: `x` is bound only in the outer
scope, declaring `x : float` in the inner scope succeeds and shadows the
INT binding. -/
theorem C7_scope_declare_resolve_witness :
    SymbolTable.add_symbol
        (.mk [] (some (.mk [("x", ⟨.sym .INT, false⟩)] Option.none))) "x"
        (.sym .FLOAT) true
      = .ok (.mk [("x", ⟨.sym .FLOAT, true⟩)]
          (some (.mk [("x", ⟨.sym .INT, false⟩)] Option.none))) ∧
    SymbolTable.check_symbol
        (.mk [("x", ⟨.sym .FLOAT, true⟩)]
          (some (.mk [("x", ⟨.sym .INT, false⟩)] Option.none))) "x"
      = .ok ⟨.sym .FLOAT, true⟩ := by
  have h := (C7_scope_declare_resolve
    (.mk [] (some (.mk [("x", ⟨.sym .INT, false⟩)] Option.none))) "x"
    (.sym .FLOAT) true).2.1 (by rfl)
  exact ⟨h.1, h.2⟩

/-! ### Small rewriting helpers -/

theorem ok_bind {e a b : Type} (x : a) (f : a → Except e b) :
    (Except.ok x : Except e a) >>= f = f x := rfl

theorem error_bind {e a b : Type} (err : e) (f : a → Except e b) :
    (Except.error err : Except e a) >>= f = .error err := rfl

theorem toString_string (s : String) : toString s = s := rfl

theorem append_lit_merge (a b c : String) (h : a ++ b = c) (x : String) :
    a ++ (b ++ x) = c ++ x := by
  rw [← String.append_assoc, h]

/-! ### One-step unfoldings of `generate_code` arms used symbolically -/

theorem gen_assign_scalar_unfold (name : String) (expr : Node) (a : SemanticAnalyzer) :
    generate_code (.assignment name Option.none expr) a = (do
      let (expr_result, expr_type, a1) ← generate_code expr a
      let result_type ← liftErr a1 (a1.analyze_assignment name expr_type)
      if result_type = .sym .FLOAT ∧ expr_type = some (.sym .INT) then
        let (temp, g1) := a1.code_gen.new_temp
        let g2 := g1.emit "inttofloat" (.val expr_result) (.val .none) (.val (.str temp))
        .ok (.none, Option.none, { a1 with code_gen := g2.emit "=" (.val (.str temp)) (.val .none) (.val (.str name)) })
      else
        .ok (.none, Option.none, { a1 with code_gen := a1.code_gen.emit "=" (.val expr_result) (.val .none) (.val (.str name)) })) := rfl

theorem gen_assign_index_unfold (name : String) (idx expr : Node) (a : SemanticAnalyzer) :
    generate_code (.assignment name (some idx) expr) a = (do
      let (index_result, index_type, a1) ← generate_code idx a
      let array_type ← liftErr a1 (a1.analyze_array_access name index_type)
      let (expr_result, expr_type, a2) ← generate_code expr a1
      if some (SymbolInfo.sym array_type) ≠ expr_type then
        Except.error (s!"Array element type mismatch in assignment to '{name}'", a2)
      else
        let (_temp, g1) := a2.code_gen.new_temp
        .ok (.none, Option.none, { a2 with code_gen := g1.emit "arraystore" (.val (.str name)) (.val index_result) (.val expr_result) })) := rfl

theorem gen_while_unfold (condition body : Node) (a : SemanticAnalyzer) :
    generate_code (.while_ condition body) a = (do
      let (start_label, g1) := a.code_gen.new_label
      let (end_label, g2) := g1.new_label
      let a1 := { a with code_gen := g2.emit "label" (.val (.str start_label)) (.val .none) (.val .none) }
      let (cond_result, cond_type, a2) ← generate_code condition a1
      if cond_type ≠ some (.sym .BOOL) then
        Except.error ("While condition must be boolean", a2)
      else
        let a3 := { a2 with code_gen := a2.code_gen.emit "ifnot" (.val cond_result) (.val .none) (.val (.str end_label)) }
        let (_r, _t, a4) ← generate_code body a3
        let a5 := { a4 with code_gen := a4.code_gen.emit "goto" (.val .none) (.val .none) (.val (.str start_label)) }
        .ok (.none, Option.none, { a5 with code_gen := a5.code_gen.emit "label" (.val (.str end_label)) (.val .none) (.val .none) })) := rfl

theorem gen_call_unfold (func_name : String) (args : List Node) (a : SemanticAnalyzer) :
    generate_code (.function_call func_name args) a = (do
      let (arg_results, arg_types, a1) ← gen_args args a
      let return_type ← liftErr a1 (a1.analyze_function_call func_name arg_types)
      if return_type ≠ .INT then
        .ok (.none, Option.none, { a1 with code_gen := a1.code_gen.emit "call" (.val (.str func_name)) (.vlist arg_results) (.val .none) })
      else
        let (temp, g1) := a1.code_gen.new_temp
        .ok (.str temp, some (.sym return_type), { a1 with code_gen := g1.emit "call" (.val (.str func_name)) (.vlist arg_results) (.val (.str temp)) })) := rfl

/-- C10: a node whose discriminator tag is not one of the ten handled tags
— notably `block`, and any misspelled tag — makes `generate_code` return
`(None, None)` without raising, without appending any instruction, and
without changing the scope chain: the whole analyzer state is returned
unchanged. -/
theorem C10_unrecognized_nodes_silently_ignored :
    ∀ (tag : String) (a : SemanticAnalyzer) (ss : List Node),
      tag ∉ handledTags →
      generate_code (.other tag) a = .ok (.none, Option.none, a) ∧
      generate_code (.block ss) a = .ok (.none, Option.none, a) := by
  intro tag a ss _
  exact ⟨rfl, rfl⟩

/-- Witness for C10: a misspelled tag and a `block` node, on the fresh
analyzer, both come back `(None, None)` with the state untouched. -/
theorem C10_unrecognized_nodes_silently_ignored_witness :
    generate_code (.other "blok") SemanticAnalyzer.init
      = .ok (.none, Option.none, SemanticAnalyzer.init) ∧
    generate_code (.block [.assignment "x" Option.none (.literal (.int 1))])
        SemanticAnalyzer.init
      = .ok (.none, Option.none, SemanticAnalyzer.init) :=
  C10_unrecognized_nodes_silently_ignored "blok" SemanticAnalyzer.init
    [.assignment "x" Option.none (.literal (.int 1))] (by decide)

/-- The instructions actually logged by the C2 failing input. -/
def c2_emitted_code : List Instr :=
  [⟨"ifnot", .val (.bool true), .val .none, .val (.str "L0")⟩,
   ⟨"label", .val (.str "L0"), .val .none, .val .none⟩]

/-- C2 (evidence of the code bug): with `x` declared INT, analyzing an
`if` whose BOOL condition is the literal `True` and whose then-block is a
`block` holding `x = 1` emits only `ifnot` and the else-label: the
block's statements are dropped (there is no `block` dispatch arm), so no
store instruction is ever emitted between `ifnot` and the label. -/
theorem C2_if_block_statements_dropped :
    (do
      let (_, _, a1) ← generate_code (.declaration "int" "x" false Option.none)
        SemanticAnalyzer.init
      generate_code (.if_ (.literal (.bool true))
        (.block [.assignment "x" Option.none (.literal (.int 1))]) Option.none) a1)
    = .ok (.none, Option.none,
        ⟨.mk [("x", ⟨.sym .INT, false⟩)] Option.none, ⟨c2_emitted_code, 0, 2⟩, []⟩) ∧
    ∀ i ∈ c2_emitted_code, i.op ≠ "=" :=
  ⟨rfl, by decide⟩

/-- The instruction logged by the C3 counterexample's right-hand side. -/
def c3_logged_code : List Instr :=
  [⟨"+", .val (.int 1), .val (.int 2), .val (.str "t0")⟩]

/-- C3 counterexample: assigning `1 + 2` to the const `MAX` fails with the
const error, but the `+` instruction produced by the right-hand side is
already in the instruction log at the failure — refuting that the const
and whole-array checks run before the right-hand expression is
evaluated. -/
theorem C3_checks_before_rhs_counterexample :
    (do
      let (_, _, a1) ← generate_code (.declaration "int" "MAX" true Option.none)
        SemanticAnalyzer.init
      generate_code (.assignment "MAX" Option.none
        (.binary_op "+" (.literal (.int 1)) (.literal (.int 2)))) a1)
    = .error ("Assignment error: Cannot assign to constant 'MAX'",
        ⟨.mk [("MAX", ⟨.sym .INT, true⟩)] Option.none, ⟨c3_logged_code, 1, 0⟩, []⟩) ∧
    c3_logged_code ≠ [] :=
  ⟨rfl, by decide⟩

/-- C3 amended: for a scalar assignment the right-hand expression is
evaluated first, its instructions entering the log; only then is the
target resolved and checked — const before whole-array — and on either
failure the analyzer raises with exactly the post-evaluation state, so the
right-hand side's instructions remain in the log. -/
theorem C3_rhs_evaluated_before_target_checks :
    ∀ (name : String) (expr : Node) (a : SemanticAnalyzer) (r : PyVal)
      (et : TypeV) (a1 : SemanticAnalyzer) (e : SymbolEntry),
      generate_code expr a = .ok (r, et, a1) →
      a1.current_scope.check_symbol name = .ok e →
      (e.is_const = true →
        generate_code (.assignment name Option.none expr) a
          = .error (s!"Assignment error: Cannot assign to constant '{name}'", a1)) ∧
      (∀ at_, e.is_const = false → e.type = .arr at_ →
        generate_code (.assignment name Option.none expr) a
          = .error (s!"Assignment error: Cannot directly assign to array '{name}'", a1)) := by
  intro name expr a r et a1 e h1 he
  constructor
  · intro hc
    rw [gen_assign_scalar_unfold, h1]
    show liftErr a1 (a1.analyze_assignment name et) >>= _ = _
    rw [SemanticAnalyzer.analyze_assignment]
    simp only [he, ok_bind, error_bind, hc, if_true]
    simp only [liftErr, error_bind]
    simp only [toString_string, String.append_empty, String.append_assoc]
    rw [append_lit_merge "Assignment error: " "Cannot assign to constant '"
      "Assignment error: Cannot assign to constant '" rfl]
  · intro at_ hc ht
    rw [gen_assign_scalar_unfold, h1]
    show liftErr a1 (a1.analyze_assignment name et) >>= _ = _
    rw [SemanticAnalyzer.analyze_assignment]
    simp only [he, ok_bind, error_bind, hc, ht]
    simp only [Bool.false_eq_true, if_false, liftErr, error_bind]
    simp only [toString_string, String.append_empty, String.append_assoc]
    rw [append_lit_merge "Assignment error: " "Cannot directly assign to array '"
      "Assignment error: Cannot directly assign to array '" rfl]

/-- Witness for the amended C3: the counterexample input, rebuilt through
the amended theorem's hypotheses. -/
theorem C3_rhs_evaluated_before_target_checks_witness :
    generate_code (.assignment "MAX" Option.none
        (.binary_op "+" (.literal (.int 1)) (.literal (.int 2))))
      ⟨.mk [("MAX", ⟨.sym .INT, true⟩)] Option.none, .init, []⟩
      = .error ("Assignment error: Cannot assign to constant 'MAX'",
          ⟨.mk [("MAX", ⟨.sym .INT, true⟩)] Option.none, ⟨c3_logged_code, 1, 0⟩, []⟩) := by
  have h := (C3_rhs_evaluated_before_target_checks "MAX"
    (.binary_op "+" (.literal (.int 1)) (.literal (.int 2)))
    ⟨.mk [("MAX", ⟨.sym .INT, true⟩)] Option.none, .init, []⟩
    (.str "t0") (some (.sym .INT))
    ⟨.mk [("MAX", ⟨.sym .INT, true⟩)] Option.none, ⟨c3_logged_code, 1, 0⟩, []⟩
    ⟨.sym .INT, true⟩ rfl rfl).1 rfl
  exact h

/-- C4: for a scalar assignment to a resolved non-const target of scalar
type `ty`: a FLOAT target with an INT expression emits exactly an
`inttofloat` into the fresh temporary followed by the store of that
temporary; identical target/expression types emit a single store of the
value; every other type pair — in particular a FLOAT expression into an
INT target — fails with the type-mismatch error. -/
theorem C4_scalar_assignment_promotion_and_mismatch :
    ∀ (name : String) (expr : Node) (a : SemanticAnalyzer) (r : PyVal)
      (et : TypeV) (a1 : SemanticAnalyzer) (e : SymbolEntry) (ty : SymbolType),
      generate_code expr a = .ok (r, et, a1) →
      a1.current_scope.check_symbol name = .ok e →
      e.is_const = false →
      e.type = .sym ty →
      (ty = .FLOAT → et = some (.sym .INT) →
        generate_code (.assignment name Option.none expr) a
          = .ok (.none, Option.none, { a1 with code_gen :=
              ⟨a1.code_gen.code
                ++ [⟨"inttofloat", .val r, .val .none,
                      .val (.str s!"t{a1.code_gen.temp_count}")⟩,
                    ⟨"=", .val (.str s!"t{a1.code_gen.temp_count}"), .val .none,
                      .val (.str name)⟩],
               a1.code_gen.temp_count + 1, a1.code_gen.label_count⟩ })) ∧
      (et = some (.sym ty) →
        generate_code (.assignment name Option.none expr) a
          = .ok (.none, Option.none, { a1 with code_gen :=
              ⟨a1.code_gen.code ++ [⟨"=", .val r, .val .none, .val (.str name)⟩],
               a1.code_gen.temp_count, a1.code_gen.label_count⟩ })) ∧
      (et ≠ some (.sym ty) → ¬(ty = .FLOAT ∧ et = some (.sym .INT)) →
        generate_code (.assignment name Option.none expr) a
          = .error (s!"Assignment error: Type mismatch in assignment to '{name}'", a1)) := by
  intro name expr a r et a1 e ty h1 he hconst hty
  refine ⟨?_, ?_, ?_⟩
  · intro hf het
    subst hf
    subst het
    rw [gen_assign_scalar_unfold, h1]
    show liftErr a1 (a1.analyze_assignment name (some (.sym .INT))) >>= _ = _
    rw [SemanticAnalyzer.analyze_assignment]
    simp only [he, ok_bind, hconst, hty, Bool.false_eq_true, if_false]
    simp [liftErr, ok_bind, IntermediateCodeGenerator.emit,
      IntermediateCodeGenerator.new_temp, List.append_assoc]
  · intro het
    subst het
    rw [gen_assign_scalar_unfold, h1]
    show liftErr a1 (a1.analyze_assignment name (some (.sym ty))) >>= _ = _
    rw [SemanticAnalyzer.analyze_assignment]
    simp only [he, ok_bind, hconst, hty, Bool.false_eq_true, if_false]
    have hcond : ¬(SymbolInfo.sym ty = SymbolInfo.sym SymbolType.FLOAT ∧
        (some (SymbolInfo.sym ty) : TypeV) = some (.sym .INT)) := by
      rintro ⟨hh, hi⟩
      injection hh with hh'
      injection hi with hi'
      injection hi' with hi2
      subst hh'
      cases hi2
    simp [liftErr, ok_bind, hcond, IntermediateCodeGenerator.emit]
    intro hF hI
    subst hF
    cases hI
  · intro hne hnp
    rw [gen_assign_scalar_unfold, h1]
    show liftErr a1 (a1.analyze_assignment name et) >>= _ = _
    rw [SemanticAnalyzer.analyze_assignment]
    have hne' : ¬(some (SymbolInfo.sym ty) : TypeV) = et := fun h => hne h.symm
    have hcond : ¬(SymbolInfo.sym ty = SymbolInfo.sym SymbolType.FLOAT ∧
        et = some (SymbolInfo.sym SymbolType.INT)) := by
      rintro ⟨hh, hi⟩
      injection hh with hh'
      exact hnp ⟨hh', hi⟩
    simp only [he, ok_bind, hconst, hty, Bool.false_eq_true, if_false]
    simp only [hne', hcond, ne_eq, not_false_eq_true, if_true, if_false]
    simp only [liftErr, error_bind]
    simp only [toString_string, String.append_empty, String.append_assoc]
    rw [append_lit_merge "Assignment error: " "Type mismatch in assignment to '"
      "Assignment error: Type mismatch in assignment to '" rfl]

/-- Witness for C4: assigning the INT literal `7` to the FLOAT variable
`y` emits the conversion into `t0` and the store of `t0`. -/
theorem C4_scalar_assignment_promotion_and_mismatch_witness :
    generate_code (.assignment "y" Option.none (.literal (.int 7)))
      ⟨.mk [("y", ⟨.sym .FLOAT, false⟩)] Option.none, .init, []⟩
      = .ok (.none, Option.none,
          ⟨.mk [("y", ⟨.sym .FLOAT, false⟩)] Option.none,
           ⟨[⟨"inttofloat", .val (.int 7), .val .none, .val (.str "t0")⟩,
             ⟨"=", .val (.str "t0"), .val .none, .val (.str "y")⟩], 1, 0⟩, []⟩) := by
  have h := (C4_scalar_assignment_promotion_and_mismatch "y" (.literal (.int 7))
    ⟨.mk [("y", ⟨.sym .FLOAT, false⟩)] Option.none, .init, []⟩
    (.int 7) (some (.sym .INT))
    ⟨.mk [("y", ⟨.sym .FLOAT, false⟩)] Option.none, .init, []⟩
    ⟨.sym .FLOAT, false⟩ .FLOAT rfl rfl rfl rfl).1 rfl rfl
  exact h

/-- C5: for an array-element assignment, the index must type-check to
exactly INT, and the assigned expression's type must exactly equal the
array's base type — no INT promotion, so an INT expression into a FLOAT
array element fails; on success a single `arraystore(name, indexRef,
exprRef)` instruction is appended (and the temp counter is bumped for the
discarded fresh temporary). -/
theorem C5_array_element_assignment_exact_types :
    ∀ (name : String) (idx expr : Node) (a : SemanticAnalyzer) (ir : PyVal)
      (it : TypeV) (a1 : SemanticAnalyzer) (e : SymbolEntry) (base : SymbolType)
      (size : Int),
      generate_code idx a = .ok (ir, it, a1) →
      a1.current_scope.check_symbol name = .ok e →
      e.type = .arr ⟨base, size⟩ →
      (it ≠ some (.sym .INT) →
        generate_code (.assignment name (some idx) expr) a
          = .error ("Array access error: Array index must be integer", a1)) ∧
      (it = some (.sym .INT) →
        ∀ (er : PyVal) (et : TypeV) (a2 : SemanticAnalyzer),
          generate_code expr a1 = .ok (er, et, a2) →
          (et ≠ some (.sym base) →
            generate_code (.assignment name (some idx) expr) a
              = .error (s!"Array element type mismatch in assignment to '{name}'", a2)) ∧
          (et = some (.sym base) →
            generate_code (.assignment name (some idx) expr) a
              = .ok (.none, Option.none, { a2 with code_gen :=
                  ⟨a2.code_gen.code
                    ++ [⟨"arraystore", .val (.str name), .val ir, .val er⟩],
                   a2.code_gen.temp_count + 1, a2.code_gen.label_count⟩ }))) := by
  intro name idx expr a ir it a1 e base size h1 he harr
  constructor
  · intro hit
    rw [gen_assign_index_unfold, h1]
    show liftErr a1 (a1.analyze_array_access name it) >>= _ = _
    rw [SemanticAnalyzer.analyze_array_access]
    simp [he, ok_bind, harr, hit, liftErr, error_bind]
    rfl
  · intro hit er et a2 h2
    subst hit
    constructor
    · intro hne
      have hne' : ¬(some (SymbolInfo.sym base) : TypeV) = et := fun h => hne h.symm
      rw [gen_assign_index_unfold, h1]
      show liftErr a1 (a1.analyze_array_access name (some (.sym .INT))) >>= _ = _
      rw [SemanticAnalyzer.analyze_array_access]
      simp [he, ok_bind, harr, liftErr, h2, hne']
    · intro het
      subst het
      rw [gen_assign_index_unfold, h1]
      show liftErr a1 (a1.analyze_array_access name (some (.sym .INT))) >>= _ = _
      rw [SemanticAnalyzer.analyze_array_access]
      simp [he, ok_bind, harr, liftErr, h2, IntermediateCodeGenerator.emit,
        IntermediateCodeGenerator.new_temp]

/-- Witness for C5: storing the INT literal `7` into an element of the
FLOAT array `fa` fails with the element-type-mismatch error even though
scalar assignment would promote. -/
theorem C5_array_element_assignment_exact_types_witness :
    generate_code (.assignment "fa" (some (.literal (.int 0))) (.literal (.int 7)))
      ⟨.mk [("fa", ⟨.arr ⟨.FLOAT, 4⟩, false⟩)] Option.none, .init, []⟩
      = .error ("Array element type mismatch in assignment to 'fa'",
          ⟨.mk [("fa", ⟨.arr ⟨.FLOAT, 4⟩, false⟩)] Option.none, .init, []⟩) := by
  have h := ((C5_array_element_assignment_exact_types "fa" (.literal (.int 0))
    (.literal (.int 7))
    ⟨.mk [("fa", ⟨.arr ⟨.FLOAT, 4⟩, false⟩)] Option.none, .init, []⟩
    (.int 0) (some (.sym .INT))
    ⟨.mk [("fa", ⟨.arr ⟨.FLOAT, 4⟩, false⟩)] Option.none, .init, []⟩
    ⟨.arr ⟨.FLOAT, 4⟩, false⟩ .FLOAT 4 rfl rfl rfl).2 rfl (.int 7)
    (some (.sym .INT))
    ⟨.mk [("fa", ⟨.arr ⟨.FLOAT, 4⟩, false⟩)] Option.none, .init, []⟩ rfl).1
    (by decide)
  exact h

/-- C6: a `while` node with a BOOL-typed condition emits exactly, in
order: `label startLabel`; the condition's instructions; `ifnot condRef,
_, endLabel`; the body's instructions; `goto startLabel`; `label
endLabel` — the loop itself contributes exactly two labels, one `ifnot`
and one `goto`, whatever the body contains. -/
theorem C6_while_emission_shape :
    ∀ (cond body : Node) (a : SemanticAnalyzer) (startL endL : String)
      (a1 : SemanticAnalyzer) (cr : PyVal) (a2 : SemanticAnalyzer)
      (a3 : SemanticAnalyzer) (br : PyVal) (bt : TypeV) (a4 : SemanticAnalyzer),
      startL = s!"L{a.code_gen.label_count}" →
      endL = s!"L{a.code_gen.label_count + 1}" →
      a1 = { a with code_gen :=
        ⟨a.code_gen.code ++ [⟨"label", .val (.str startL), .val .none, .val .none⟩],
         a.code_gen.temp_count, a.code_gen.label_count + 1 + 1⟩ } →
      generate_code cond a1 = .ok (cr, some (.sym .BOOL), a2) →
      a3 = { a2 with code_gen :=
        ⟨a2.code_gen.code ++ [⟨"ifnot", .val cr, .val .none, .val (.str endL)⟩],
         a2.code_gen.temp_count, a2.code_gen.label_count⟩ } →
      generate_code body a3 = .ok (br, bt, a4) →
      generate_code (.while_ cond body) a
        = .ok (.none, Option.none, { a4 with code_gen :=
            ⟨a4.code_gen.code
              ++ [⟨"goto", .val .none, .val .none, .val (.str startL)⟩]
              ++ [⟨"label", .val (.str endL), .val .none, .val .none⟩],
             a4.code_gen.temp_count, a4.code_gen.label_count⟩ }) ∧
      (∀ condCode bodyCode,
        a2.code_gen.code = a1.code_gen.code ++ condCode →
        a4.code_gen.code = a3.code_gen.code ++ bodyCode →
        a4.code_gen.code
            ++ [⟨"goto", .val .none, .val .none, .val (.str startL)⟩]
            ++ [⟨"label", .val (.str endL), .val .none, .val .none⟩]
          = a.code_gen.code
            ++ [⟨"label", .val (.str startL), .val .none, .val .none⟩]
            ++ condCode
            ++ [⟨"ifnot", .val cr, .val .none, .val (.str endL)⟩]
            ++ bodyCode
            ++ [⟨"goto", .val .none, .val .none, .val (.str startL)⟩]
            ++ [⟨"label", .val (.str endL), .val .none, .val .none⟩]) := by
  intro cond body a startL endL a1 cr a2 a3 br bt a4 hs he2 ha1 h1 ha3 h2
  subst hs
  subst he2
  subst ha1
  subst ha3
  constructor
  · rw [gen_while_unfold]
    simp only [IntermediateCodeGenerator.new_label, IntermediateCodeGenerator.emit]
    rw [h1]
    simp only [ok_bind]
    simp only [ne_eq, not_true_eq_false, if_false, ite_self, reduceIte]
    rw [h2]
    simp only [ok_bind]
  · intro condCode bodyCode hcc hbc
    rw [hbc, hcc]

/-- Witness for C6: `while (1 < 2) { }` from the fresh analyzer yields
exactly `label L0; < 1 2 t0; ifnot t0 L1; goto L0; label L1`. -/
theorem C6_while_emission_shape_witness :
    generate_code (.while_ (.binary_op "<" (.literal (.int 1)) (.literal (.int 2)))
        (.block [])) SemanticAnalyzer.init
      = .ok (.none, Option.none,
          ⟨.mk [] Option.none,
           ⟨[⟨"label", .val (.str "L0"), .val .none, .val .none⟩,
             ⟨"<", .val (.int 1), .val (.int 2), .val (.str "t0")⟩,
             ⟨"ifnot", .val (.str "t0"), .val .none, .val (.str "L1")⟩]
            ++ [⟨"goto", .val .none, .val .none, .val (.str "L0")⟩]
            ++ [⟨"label", .val (.str "L1"), .val .none, .val .none⟩],
            1, 2⟩, []⟩) := by
  have h := (C6_while_emission_shape
    (.binary_op "<" (.literal (.int 1)) (.literal (.int 2))) (.block [])
    SemanticAnalyzer.init "L0" "L1"
    ⟨.mk [] Option.none,
     ⟨[⟨"label", .val (.str "L0"), .val .none, .val .none⟩], 0, 2⟩, []⟩
    (.str "t0")
    ⟨.mk [] Option.none,
     ⟨[⟨"label", .val (.str "L0"), .val .none, .val .none⟩,
       ⟨"<", .val (.int 1), .val (.int 2), .val (.str "t0")⟩], 1, 2⟩, []⟩
    ⟨.mk [] Option.none,
     ⟨[⟨"label", .val (.str "L0"), .val .none, .val .none⟩,
       ⟨"<", .val (.int 1), .val (.int 2), .val (.str "t0")⟩,
       ⟨"ifnot", .val (.str "t0"), .val .none, .val (.str "L1")⟩], 1, 2⟩, []⟩
    (.none) Option.none
    ⟨.mk [] Option.none,
     ⟨[⟨"label", .val (.str "L0"), .val .none, .val .none⟩,
       ⟨"<", .val (.int 1), .val (.int 2), .val (.str "t0")⟩,
       ⟨"ifnot", .val (.str "t0"), .val .none, .val (.str "L1")⟩], 1, 2⟩, []⟩
    rfl rfl (by rfl) (by rfl) (by rfl) (by rfl)).1
  exact h

theorem firstArgMismatch_none_of_match (ps : List SymbolType) :
    ∀ i, firstArgMismatch
      ((ps.map (fun p => (some (SymbolInfo.sym p) : TypeV))).zip ps) i
        = Option.none := by
  induction ps with
  | nil => intro i; rfl
  | cons p rest ih =>
    intro i
    show firstArgMismatch ((some (SymbolInfo.sym p), p) ::
      (rest.map (fun p => (some (SymbolInfo.sym p) : TypeV))).zip rest) i = _
    rw [firstArgMismatch]
    simp only [ne_eq, not_true_eq_false, if_false, ite_self, reduceIte]
    exact ih (i + 1)

/-- C1: for a `function_call` node whose callee is registered and whose
evaluated argument types equal the registered parameter types one for one,
`analyze_function_call` reports the registered return type; when that type
is INT the call instruction captures a fresh result temporary which is
returned with type INT, and for any other return type the call is emitted
with no result capture, no temporary is consumed, and the node yields
`(None, None)`. -/
theorem C1_function_call_return_type_and_temp :
    ∀ (f : String) (args : List Node) (a : SemanticAnalyzer) (rs : List PyVal)
      (ts : List TypeV) (a1 : SemanticAnalyzer) (sig : FunctionSig),
      gen_args args a = .ok (rs, ts, a1) →
      a1.functions.lookup f = some sig →
      ts = sig.params.map (fun p => some (.sym p)) →
      a1.analyze_function_call f ts = .ok sig.return_type ∧
      (sig.return_type = .INT →
        generate_code (.function_call f args) a
          = .ok (.str s!"t{a1.code_gen.temp_count}", some (.sym .INT),
              { a1 with code_gen :=
                ⟨a1.code_gen.code
                  ++ [⟨"call", .val (.str f), .vlist rs,
                        .val (.str s!"t{a1.code_gen.temp_count}")⟩],
                 a1.code_gen.temp_count + 1, a1.code_gen.label_count⟩ })) ∧
      (sig.return_type ≠ .INT →
        generate_code (.function_call f args) a
          = .ok (.none, Option.none,
              { a1 with code_gen :=
                ⟨a1.code_gen.code
                  ++ [⟨"call", .val (.str f), .vlist rs, .val .none⟩],
                 a1.code_gen.temp_count, a1.code_gen.label_count⟩ })) := by
  intro f args a rs ts a1 sig hargs hreg hts
  subst hts
  have hA : a1.analyze_function_call f
      (sig.params.map (fun p => (some (SymbolInfo.sym p) : TypeV)))
      = .ok sig.return_type := by
    rw [SemanticAnalyzer.analyze_function_call]
    simp only [hreg, List.length_map, ne_eq, not_true_eq_false, if_false, ite_self,
      reduceIte]
    rw [firstArgMismatch_none_of_match]
  refine ⟨hA, ?_, ?_⟩
  · intro hint
    rw [gen_call_unfold, hargs]
    simp only [ok_bind]
    simp only [liftErr, hA, ok_bind]
    simp [hint, IntermediateCodeGenerator.emit, IntermediateCodeGenerator.new_temp]
  · intro hnint
    rw [gen_call_unfold, hargs]
    simp only [ok_bind]
    simp only [liftErr, hA, ok_bind]
    simp [hnint, IntermediateCodeGenerator.emit]

/-- Witness for C1: calling the registered zero-parameter INT function
`len` captures the fresh temporary `t0` in the call instruction and
reports INT. -/
theorem C1_function_call_return_type_and_temp_witness :
    generate_code (.function_call "len" [])
      ⟨.mk [] Option.none, .init, [("len", ⟨.INT, []⟩)]⟩
      = .ok (.str "t0", some (.sym .INT),
          ⟨.mk [] Option.none,
           ⟨[⟨"call", .val (.str "len"), .vlist [], .val (.str "t0")⟩], 1, 0⟩,
           [("len", ⟨.INT, []⟩)]⟩) := by
  have h := ((C1_function_call_return_type_and_temp "len" []
    ⟨.mk [] Option.none, .init, [("len", ⟨.INT, []⟩)]⟩ [] []
    ⟨.mk [] Option.none, .init, [("len", ⟨.INT, []⟩)]⟩
    ⟨.INT, []⟩ rfl rfl rfl).2).1 rfl
  exact h

/-! ### Operator chains for the parser's associativity property -/

/-- Interleave `(operator, operand)` pairs in front of a remainder. -/
def chainToks : List (Token × Token) → List Token → List Token
  | [], rest => rest
  | (o, v) :: ps, rest => o :: v :: chainToks ps rest

/-- The left-associated tree the loops build: fold each pair onto the
accumulated left subtree. -/
def leftNest (acc : Ast) (ps : List (Token × Token)) : Ast :=
  ps.foldl (fun n p => .binOp n p.1 (.num p.2)) acc

theorem current_mk (T : List Token) (p : Nat) :
    PState.current ⟨T, p⟩ = (T.drop p).headD Token.eofDefault := rfl

theorem drop_len_append (l X : List Token) : (l ++ X).drop l.length = X := by
  induction l with
  | nil => rfl
  | cons x xs ih =>
    simp only [List.cons_append, List.length_cons, List.drop_succ_cons]
    exact ih

theorem drop_len1_append (l : List Token) (x : Token) (X : List Token) :
    (l ++ x :: X).drop (l.length + 1) = X := by
  have h : l ++ x :: X = (l ++ [x]) ++ X := by simp
  have hl : l.length + 1 = (l ++ [x]).length := by simp
  rw [h, hl, drop_len_append]

theorem drop_len2_append (l : List Token) (x y : Token) (X : List Token) :
    (l ++ x :: y :: X).drop (l.length + 1 + 1) = X := by
  have h : l ++ x :: y :: X = (l ++ [x, y]) ++ X := by simp
  have hl : l.length + 1 + 1 = (l ++ [x, y]).length := by simp [Nat.add_assoc]
  rw [h, hl, drop_len_append]

theorem termLoop_chain :
    ∀ (ps : List (Token × Token)) (fuel : Nat) (acc : Ast) (done rest : List Token),
      ps.length + 1 ≤ fuel →
      (∀ p ∈ ps, (p.1.type = .MUL ∨ p.1.type = .DIV) ∧
        (p.2.type = .INTEGER ∨ p.2.type = .FLOAT)) →
      (rest.headD Token.eofDefault).type ≠ .MUL →
      (rest.headD Token.eofDefault).type ≠ .DIV →
      Parser.termLoop fuel acc ⟨done ++ chainToks ps rest, done.length⟩
        = .ok (leftNest acc ps,
            ⟨done ++ chainToks ps rest, done.length + 2 * ps.length⟩) := by
  intro ps
  induction ps with
  | nil =>
    intro fuel acc done rest hf hp hm hd
    obtain ⟨f1, rfl⟩ : ∃ f1, fuel = f1 + 1 := ⟨fuel - 1, by omega⟩
    rw [Parser.termLoop]
    have hcur : PState.current ⟨done ++ chainToks [] rest, done.length⟩
        = rest.headD Token.eofDefault := by
      rw [current_mk]
      show ((done ++ rest).drop done.length).headD _ = _
      rw [drop_len_append]
    have hcond : ¬((PState.current ⟨done ++ chainToks [] rest, done.length⟩).type = .MUL ∨
        (PState.current ⟨done ++ chainToks [] rest, done.length⟩).type = .DIV) := by
      rw [hcur]
      rintro (h | h)
      · exact hm h
      · exact hd h
    rw [if_neg hcond]
    simp [leftNest]
  | cons p ps ih =>
    obtain ⟨o, v⟩ := p
    intro fuel acc done rest hf hp hm hd
    have hf' : ps.length + 1 + 1 ≤ fuel := by
      simpa using hf
    obtain ⟨f1, rfl⟩ : ∃ f1, fuel = f1 + 1 := ⟨fuel - 1, by omega⟩
    obtain ⟨f2, rfl⟩ : ∃ f2, f1 = f2 + 1 := ⟨f1 - 1, by omega⟩
    have ho := (hp (o, v) (List.mem_cons_self _ _)).1
    have hv := (hp (o, v) (List.mem_cons_self _ _)).2
    show Parser.termLoop (f2 + 1 + 1) acc
      ⟨done ++ o :: v :: chainToks ps rest, done.length⟩ = _
    rw [Parser.termLoop]
    have hcur : PState.current ⟨done ++ o :: v :: chainToks ps rest, done.length⟩
        = o := by
      rw [current_mk]
      rw [drop_len_append done (o :: v :: chainToks ps rest)]
      rfl
    rw [hcur]
    rw [if_pos ho]
    rw [Parser.eat, hcur, if_pos rfl]
    rw [ok_bind]
    have hst1 : ({ (⟨done ++ o :: v :: chainToks ps rest, done.length⟩ : PState)
        with pos := (⟨done ++ o :: v :: chainToks ps rest, done.length⟩ : PState).pos + 1 })
        = (⟨done ++ o :: v :: chainToks ps rest, done.length + 1⟩ : PState) := rfl
    rw [hst1]
    rw [Parser.factor]
    have hcur1 : PState.current ⟨done ++ o :: v :: chainToks ps rest, done.length + 1⟩
        = v := by
      rw [current_mk, drop_len1_append]
      rfl
    rw [hcur1, if_pos hv]
    rw [Parser.eat, hcur1, if_pos rfl]
    rw [ok_bind, ok_bind]
    have hst2 : ({ (⟨done ++ o :: v :: chainToks ps rest, done.length + 1⟩ : PState)
        with pos := (⟨done ++ o :: v :: chainToks ps rest, done.length + 1⟩ : PState).pos + 1 })
        = (⟨(done ++ [o, v]) ++ chainToks ps rest, (done ++ [o, v]).length⟩ : PState) := by
      simp
    rw [hst2]
    show Parser.termLoop (f2 + 1) (.binOp acc o (.num v))
      ⟨(done ++ [o, v]) ++ chainToks ps rest, (done ++ [o, v]).length⟩ = _
    rw [ih (f2 + 1) (.binOp acc o (.num v)) (done ++ [o, v]) rest (by omega)
      (fun q hq => hp q (List.mem_cons_of_mem _ hq)) hm hd]
    have htoks : (done ++ [o, v]) ++ chainToks ps rest
        = done ++ o :: v :: chainToks ps rest := by simp
    have hpos : (done ++ [o, v]).length + 2 * ps.length
        = done.length + 2 * (ps.length + 1) := by simp; omega
    rw [htoks, hpos]
    rfl

theorem exprLoop_chain :
    ∀ (ps : List (Token × Token)) (fuel : Nat) (acc : Ast) (done rest : List Token),
      ps.length + 3 ≤ fuel →
      (∀ p ∈ ps, (p.1.type = .PLUS ∨ p.1.type = .MINUS) ∧
        (p.2.type = .INTEGER ∨ p.2.type = .FLOAT)) →
      (rest.headD Token.eofDefault).type ≠ .PLUS →
      (rest.headD Token.eofDefault).type ≠ .MINUS →
      (rest.headD Token.eofDefault).type ≠ .MUL →
      (rest.headD Token.eofDefault).type ≠ .DIV →
      Parser.exprLoop fuel acc ⟨done ++ chainToks ps rest, done.length⟩
        = .ok (leftNest acc ps,
            ⟨done ++ chainToks ps rest, done.length + 2 * ps.length⟩) := by
  intro ps
  induction ps with
  | nil =>
    intro fuel acc done rest hf hp hpl hmi hm hd
    obtain ⟨f1, rfl⟩ : ∃ f1, fuel = f1 + 1 := ⟨fuel - 1, by omega⟩
    rw [Parser.exprLoop]
    have hcur : PState.current ⟨done ++ chainToks [] rest, done.length⟩
        = rest.headD Token.eofDefault := by
      rw [current_mk]
      show ((done ++ rest).drop done.length).headD _ = _
      rw [drop_len_append]
    have hcond : ¬((PState.current ⟨done ++ chainToks [] rest, done.length⟩).type = .PLUS ∨
        (PState.current ⟨done ++ chainToks [] rest, done.length⟩).type = .MINUS) := by
      rw [hcur]
      rintro (h | h)
      · exact hpl h
      · exact hmi h
    rw [if_neg hcond]
    simp [leftNest]
  | cons p ps ih =>
    obtain ⟨o, v⟩ := p
    intro fuel acc done rest hf hp hpl hmi hm hd
    have hf' : ps.length + 1 + 3 ≤ fuel := by
      simpa using hf
    obtain ⟨f1, rfl⟩ : ∃ f1, fuel = f1 + 1 := ⟨fuel - 1, by omega⟩
    obtain ⟨f2, rfl⟩ : ∃ f2, f1 = f2 + 1 := ⟨f1 - 1, by omega⟩
    obtain ⟨f3, rfl⟩ : ∃ f3, f2 = f3 + 1 := ⟨f2 - 1, by omega⟩
    have ho := (hp (o, v) (List.mem_cons_self _ _)).1
    have hv := (hp (o, v) (List.mem_cons_self _ _)).2
    show Parser.exprLoop (f3 + 1 + 1 + 1) acc
      ⟨done ++ o :: v :: chainToks ps rest, done.length⟩ = _
    rw [Parser.exprLoop]
    have hcur : PState.current ⟨done ++ o :: v :: chainToks ps rest, done.length⟩
        = o := by
      rw [current_mk]
      rw [drop_len_append done (o :: v :: chainToks ps rest)]
      rfl
    rw [hcur]
    rw [if_pos ho]
    rw [Parser.eat, hcur, if_pos rfl]
    rw [ok_bind]
    have hst1 : ({ (⟨done ++ o :: v :: chainToks ps rest, done.length⟩ : PState)
        with pos := (⟨done ++ o :: v :: chainToks ps rest, done.length⟩ : PState).pos + 1 })
        = (⟨done ++ o :: v :: chainToks ps rest, done.length + 1⟩ : PState) := rfl
    rw [hst1]
    rw [Parser.term]
    rw [Parser.factor]
    have hcur1 : PState.current ⟨done ++ o :: v :: chainToks ps rest, done.length + 1⟩
        = v := by
      rw [current_mk, drop_len1_append]
      rfl
    rw [hcur1, if_pos hv]
    rw [Parser.eat, hcur1, if_pos rfl]
    rw [ok_bind, ok_bind]
    have hst2 : ({ (⟨done ++ o :: v :: chainToks ps rest, done.length + 1⟩ : PState)
        with pos := (⟨done ++ o :: v :: chainToks ps rest, done.length + 1⟩ : PState).pos + 1 })
        = (⟨done ++ o :: v :: chainToks ps rest, done.length + 1 + 1⟩ : PState) := rfl
    rw [hst2]
    show Parser.termLoop (f3 + 1) (.num v)
        ⟨done ++ o :: v :: chainToks ps rest, done.length + 1 + 1⟩ >>= _ = _
    rw [Parser.termLoop]
    have hcur2 : PState.current ⟨done ++ o :: v :: chainToks ps rest, done.length + 1 + 1⟩
        = (chainToks ps rest).headD Token.eofDefault := by
      rw [current_mk, drop_len2_append]
    have hnext : ((chainToks ps rest).headD Token.eofDefault).type ≠ .MUL ∧
        ((chainToks ps rest).headD Token.eofDefault).type ≠ .DIV := by
      cases ps with
      | nil => exact ⟨hm, hd⟩
      | cons q qs =>
        obtain ⟨q1, q2⟩ := q
        obtain ⟨hq1, _⟩ := hp (q1, q2)
          (List.mem_cons_of_mem _ (List.mem_cons_self _ _))
        constructor
        · show q1.type ≠ .MUL
          rcases hq1 with h1 | h1 <;> rw [h1] <;> decide
        · show q1.type ≠ .DIV
          rcases hq1 with h1 | h1 <;> rw [h1] <;> decide
    have hcond2 : ¬((PState.current ⟨done ++ o :: v :: chainToks ps rest,
        done.length + 1 + 1⟩).type = .MUL ∨
        (PState.current ⟨done ++ o :: v :: chainToks ps rest,
          done.length + 1 + 1⟩).type = .DIV) := by
      rw [hcur2]
      rintro (h | h)
      · exact hnext.1 h
      · exact hnext.2 h
    rw [if_neg hcond2]
    rw [ok_bind]
    have hreassoc : (⟨done ++ o :: v :: chainToks ps rest,
        done.length + 1 + 1⟩ : PState)
        = ⟨(done ++ [o, v]) ++ chainToks ps rest, (done ++ [o, v]).length⟩ := by
      simp
    show Parser.exprLoop (f3 + 1 + 1) (.binOp acc o (.num v))
      ⟨done ++ o :: v :: chainToks ps rest, done.length + 1 + 1⟩ = _
    rw [hreassoc]
    rw [ih (f3 + 1 + 1) (.binOp acc o (.num v)) (done ++ [o, v]) rest (by omega)
      (fun q hq => hp q (List.mem_cons_of_mem _ hq)) hpl hmi hm hd]
    have htoks : (done ++ [o, v]) ++ chainToks ps rest
        = done ++ o :: v :: chainToks ps rest := by simp
    have hpos : (done ++ [o, v]).length + 2 * ps.length
        = done.length + 2 * (ps.length + 1) := by simp; omega
    rw [htoks, hpos]
    rfl

/-- Token stream for `2 + 3 * 4`. -/
def c9_toks1 : List Token :=
  [⟨.INTEGER, .int 2, some 1, some 1⟩, ⟨.PLUS, .none, some 1, some 3⟩,
   ⟨.INTEGER, .int 3, some 1, some 5⟩, ⟨.MUL, .none, some 1, some 7⟩,
   ⟨.INTEGER, .int 4, some 1, some 9⟩, ⟨.EOF, .none, some 1, some 10⟩]

/-- The tree `2 + (3 * 4)` over those tokens. -/
def c9_tree1 : Ast :=
  .binOp (.num ⟨.INTEGER, .int 2, some 1, some 1⟩) ⟨.PLUS, .none, some 1, some 3⟩
    (.binOp (.num ⟨.INTEGER, .int 3, some 1, some 5⟩) ⟨.MUL, .none, some 1, some 7⟩
      (.num ⟨.INTEGER, .int 4, some 1, some 9⟩))

/-- Token stream for `(2 + 3) * 4`. -/
def c9_toks2 : List Token :=
  [⟨.LPAREN, .none, some 1, some 1⟩, ⟨.INTEGER, .int 2, some 1, some 2⟩,
   ⟨.PLUS, .none, some 1, some 4⟩, ⟨.INTEGER, .int 3, some 1, some 6⟩,
   ⟨.RPAREN, .none, some 1, some 7⟩, ⟨.MUL, .none, some 1, some 9⟩,
   ⟨.INTEGER, .int 4, some 1, some 11⟩, ⟨.EOF, .none, some 1, some 12⟩]

/-- The tree `(2 + 3) * 4` over those tokens. -/
def c9_tree2 : Ast :=
  .binOp (.binOp (.num ⟨.INTEGER, .int 2, some 1, some 2⟩) ⟨.PLUS, .none, some 1, some 4⟩
      (.num ⟨.INTEGER, .int 3, some 1, some 6⟩)) ⟨.MUL, .none, some 1, some 9⟩
    (.num ⟨.INTEGER, .int 4, some 1, some 11⟩)

/-- C9: parsing `2 + 3 * 4` yields `2 + (3 * 4)` and parsing `(2 + 3) * 4`
yields `(2 + 3) * 4`; moreover, for every chain of equal-precedence
operators the `expression`/`term` while-loops fold each further operator
onto the accumulated left subtree, producing the left-associated tree. -/
theorem C9_parser_precedence_left_assoc :
    Parser.parse c9_toks1 = .ok (.program [c9_tree1]) ∧
    Parser.parse c9_toks2 = .ok (.program [c9_tree2]) ∧
    (∀ (ps : List (Token × Token)) (fuel : Nat) (acc : Ast) (done rest : List Token),
      ps.length + 3 ≤ fuel →
      (∀ p ∈ ps, (p.1.type = .PLUS ∨ p.1.type = .MINUS) ∧
        (p.2.type = .INTEGER ∨ p.2.type = .FLOAT)) →
      (rest.headD Token.eofDefault).type ≠ .PLUS →
      (rest.headD Token.eofDefault).type ≠ .MINUS →
      (rest.headD Token.eofDefault).type ≠ .MUL →
      (rest.headD Token.eofDefault).type ≠ .DIV →
      Parser.exprLoop fuel acc ⟨done ++ chainToks ps rest, done.length⟩
        = .ok (leftNest acc ps,
            ⟨done ++ chainToks ps rest, done.length + 2 * ps.length⟩)) ∧
    (∀ (ps : List (Token × Token)) (fuel : Nat) (acc : Ast) (done rest : List Token),
      ps.length + 1 ≤ fuel →
      (∀ p ∈ ps, (p.1.type = .MUL ∨ p.1.type = .DIV) ∧
        (p.2.type = .INTEGER ∨ p.2.type = .FLOAT)) →
      (rest.headD Token.eofDefault).type ≠ .MUL →
      (rest.headD Token.eofDefault).type ≠ .DIV →
      Parser.termLoop fuel acc ⟨done ++ chainToks ps rest, done.length⟩
        = .ok (leftNest acc ps,
            ⟨done ++ chainToks ps rest, done.length + 2 * ps.length⟩)) :=
  ⟨rfl, rfl, exprLoop_chain, termLoop_chain⟩

/-- Witness for C9: the additive chain `2 + 3` folded by the expression
loop from accumulator `2`, and the multiplicative chain folded by the term
loop, both come out left-associated at these concrete tokens. -/
theorem C9_parser_precedence_left_assoc_witness :
    Parser.exprLoop 4 (.num ⟨.INTEGER, .int 2, some 1, some 1⟩)
      ⟨[⟨.INTEGER, .int 2, some 1, some 1⟩, ⟨.PLUS, .none, some 1, some 3⟩,
        ⟨.INTEGER, .int 3, some 1, some 5⟩, ⟨.EOF, .none, some 1, some 6⟩], 1⟩
      = .ok (.binOp (.num ⟨.INTEGER, .int 2, some 1, some 1⟩)
            ⟨.PLUS, .none, some 1, some 3⟩ (.num ⟨.INTEGER, .int 3, some 1, some 5⟩),
          ⟨[⟨.INTEGER, .int 2, some 1, some 1⟩, ⟨.PLUS, .none, some 1, some 3⟩,
            ⟨.INTEGER, .int 3, some 1, some 5⟩, ⟨.EOF, .none, some 1, some 6⟩], 3⟩) :=
  C9_parser_precedence_left_assoc.2.2.1
    [(⟨.PLUS, .none, some 1, some 3⟩, ⟨.INTEGER, .int 3, some 1, some 5⟩)] 4
    (.num ⟨.INTEGER, .int 2, some 1, some 1⟩)
    [⟨.INTEGER, .int 2, some 1, some 1⟩] [⟨.EOF, .none, some 1, some 6⟩]
    (by decide) (by decide) (by decide) (by decide) (by decide) (by decide)

end Compilers
